import Mathlib

/-!
Verification of the document-index lifecycle subsystem of a RAG PDF-ingestion
service. The definitions below are a shallow embedding of the Python sources:

* `src/ingestion/document_manager.py` — add / delete / update / list / get
* `src/ingestion/index_manager.py`    — singleton index handle and mutation lock
* `src/ingestion/image_storage.py`    — `ImageStorageManager.delete_images`
* `src/ingestion/parser.py`           — metadata stamping of parsed page nodes
* `src/api/dependencies.py`           — `validate_pdf_file`, `resolve_image_path`
* `src/api/routes/documents.py`       — the upload route and its background task
* `src/parse.py`                      — the batch CLI ingestion loop

Python strings are code-point sequences, so string primitives are modelled on
`String.data` (the character list); machine-level details (timestamps, real
uuid bytes, the actual vector encodings) that no property here depends on are
replaced by deterministic stand-ins that are documented at their definition.
-/

/-! ## String helpers (Python code-point semantics) -/

/-- Length of a Python string (number of code points, `len(s)`). -/
def strLen (s : String) : Nat := s.data.length

/-- Python slice `s[:n]`. -/
def strTake (s : String) (n : Nat) : String := String.mk (s.data.take n)

/-- Python slice `s[n:]`. -/
def strDrop (s : String) (n : Nat) : String := String.mk (s.data.drop n)

/-- Python `s.endswith(suf)`. -/
def strEndsWith (s suf : String) : Bool := List.isSuffixOf suf.data s.data

/-- Python `s.startswith(pre)`. -/
def strStartsWith (s pre : String) : Bool := List.isPrefixOf pre.data s.data

/-- Python `s.lower()` (ASCII case folding suffices for the file names here). -/
def strLower (s : String) : String := String.mk (s.data.map Char.toLower)

/-- Python `c in s` for a single character. -/
def strHasChar (s : String) (c : Char) : Bool := s.data.contains c

/-- Python `os.path.basename`: the part of the path after the last slash. -/
def basename (p : String) : String :=
  String.mk (p.data.foldl (fun acc c => if c = '/' then [] else acc ++ [c]) [])

/-- Home directory used by `Path.expanduser` (a fixed model constant). -/
def homeDir : String := "/root"

/-- Python `Path(p).expanduser()`: replace a leading tilde by the home
directory. -/
def expanduser (p : String) : String :=
  if p = "~" then homeDir
  else if strStartsWith p "~/" then homeDir ++ strDrop p 1
  else p

/-! ## Filesystem model

The image files live on a real filesystem; the model keeps the set of existing
regular files and the set of existing directories, each as a list of absolute
path strings (list order stands in for directory-listing order, which is what
`Path.iterdir` exposes). -/

structure FS where
  files : List String
  dirs : List String
deriving DecidableEq, Repr

/-- Python `os.path.exists` restricted to regular files. -/
def FS.fileExists (fs : FS) (p : String) : Bool := fs.files.contains p

/-- Python `Path.is_dir` / directory existence. -/
def FS.dirExists (fs : FS) (p : String) : Bool := fs.dirs.contains p

/-- Python `Path.exists` (a file or a directory). -/
def FS.pathExists (fs : FS) (p : String) : Bool := fs.fileExists p || fs.dirExists p

/-- Python `os.remove`. -/
def FS.removeFile (fs : FS) (p : String) : FS :=
  { fs with files := fs.files.filter (fun q => decide (q ≠ p)) }

/-- Whether `p` lies strictly below directory `dir`. -/
def isUnder (dir p : String) : Bool := strStartsWith p (dir ++ "/")

/-- Whether `p` is a direct entry of directory `dir` (no further slash). -/
def isDirectEntry (dir p : String) : Bool :=
  isUnder dir p && !(strHasChar (strDrop p (strLen dir + 1)) '/')

/-- Python `shutil.rmtree`: remove a directory and everything below it. -/
def FS.rmtree (fs : FS) (dir : String) : FS :=
  { files := fs.files.filter (fun p => !(isUnder dir p)),
    dirs := fs.dirs.filter (fun d => !(d == dir) && !(isUnder dir d)) }

/-- Python `Path(dir).glob("*.jpg")`: the `.jpg` files directly in `dir`
(empty when the directory does not exist, as for `pathlib`). -/
def FS.globJpg (fs : FS) (dir : String) : List String :=
  fs.files.filter (fun p => isDirectEntry dir p && strEndsWith p ".jpg")

/-- The immediate subdirectories of `root`, in listing order: the directories
kept by the `doc_dir.is_dir()` test of the `Path(IMAGE_DIR).iterdir()` loop. -/
def FS.immediateSubdirs (fs : FS) (root : String) : List String :=
  fs.dirs.filter (fun d => isDirectEntry root d)

/-- The configured image root (`config.IMAGE_DIR`, default `data_images`). -/
def imageDir : String := "data_images"

/-! ## Data model

A `RawPage` is one per-page output of the external parsing service (one
markdown text node zipped with its page-screenshot image node, as produced in
`parser.parse_pdf` before the metadata stamping loop); its `node_id` is the
externally generated node uuid. -/

structure RawPage where
  node_id : String
  text : String
  image_path : String
deriving DecidableEq, Repr

/-- A PDF file together with the pages the external parser extracts from it. -/
structure PdfFile where
  path : String
  pages : List RawPage
deriving DecidableEq, Repr

/-- The metadata stamped onto every node by `parser.parse_pdf` (lines 107-110):
`document_id`, `filename`, 1-based `page_number`, `image_path`. A metadata key
that is absent in Python is modelled by the empty string. -/
structure NodeMeta where
  document_id : String
  filename : String
  page_number : Nat
  image_path : String
deriving DecidableEq, Repr

/-- A `TextNode` as held by the index: id, text content, stamped metadata and
the SOURCE relationship back-reference to the owning document. -/
structure TextNode where
  node_id : String
  text : String
  meta : NodeMeta
  source_ref : String
deriving DecidableEq, Repr

/-- Embedding of `parser.parse_pdf pdf_path doc_id` (the stamping
loop; the network parse itself is the external collaborator and its output is
the `pages` field of the `PdfFile`): each page node gets the SOURCE
relationship and the document_id / filename / page_number / image_path
metadata, with `page_number = i + 1` for the `i`-th page. -/
def parse_pdf (pdf : PdfFile) (doc_id : String) : List TextNode :=
  pdf.pages.enum.map (fun ip =>
    { node_id := ip.2.node_id
      text := ip.2.text
      meta := { document_id := doc_id
                filename := basename pdf.path
                page_number := ip.1 + 1
                image_path := ip.2.image_path }
      source_ref := doc_id })

/-! ## Index state

`ref_doc_info` maps each document id to the ordered ids of its nodes, and the
docstore maps node ids to nodes — both as association lists (first binding
wins on lookup, mirroring dict semantics; `llama_index` keeps exactly this
ref-doc bookkeeping, modelled from its interface contract `insert` /
`delete_by_document` / `list_documents` / `get_fragment`). -/

structure IndexState where
  refDocInfo : List (String × List String)
  docstore : List (String × TextNode)
deriving DecidableEq, Repr

/-- Association-list lookup with propositional key test (Python `dict.get`). -/
def lookupKey {β : Type} : List (String × β) → String → Option β
  | [], _ => none
  | (k, v) :: rest, key => if k = key then some v else lookupKey rest key

/-- Register one node id under its source document, appending to the existing
entry or creating a new one at the end. -/
def addRefNode : List (String × List String) → String → String → List (String × List String)
  | [], d, nid => [(d, [nid])]
  | (k, v) :: rest, d, nid =>
    if k = d then (k, v ++ [nid]) :: rest else (k, v) :: addRefNode rest d nid

/-- Insert one node: record it in the docstore and under its SOURCE document. -/
def insertNode (idx : IndexState) (n : TextNode) : IndexState :=
  { refDocInfo := addRefNode idx.refDocInfo n.source_ref n.node_id
    docstore := idx.docstore ++ [(n.node_id, n)] }

/-- `index.insert_nodes(nodes)`: insert the nodes in order. -/
def insert_nodes (idx : IndexState) (ns : List TextNode) : IndexState :=
  ns.foldl insertNode idx

/-- `index.delete_ref_doc(doc_id, delete_from_docstore=True)`: drop the
ref entry of the document and every node it owns (exact deletion of the owned
fragments, per the backend contract). Unknown ids leave the index unchanged. -/
def delete_ref_doc (idx : IndexState) (doc_id : String) : IndexState :=
  match lookupKey idx.refDocInfo doc_id with
  | none => idx
  | some nids =>
    { refDocInfo := idx.refDocInfo.filter (fun p => decide (p.1 ≠ doc_id))
      docstore := idx.docstore.filter (fun p => !(nids.contains p.1)) }

/-! ## Lifecycle state and observable index effects

Every call the document manager makes against the shared index handle is
recorded in an event log: acquiring/releasing the single-writer mutation lock
(`index_manager.get_index_lock`), an `insert_nodes` call with its node batch,
a `delete_ref_doc` call, and a `persist_index` call. The log lets theorems
speak about which effects a code path performs and in which shape. -/

inductive IndexEvent where
  | lockAcquire
  | lockRelease
  | insertCall (nodes : List TextNode)
  | deleteCall (doc_id : String)
  | persistCall
deriving DecidableEq, Repr

/-- The sizes of the `insert_nodes` calls recorded in a log. -/
def insertCallSizes (log : List IndexEvent) : List Nat :=
  log.filterMap (fun e => match e with
    | IndexEvent.insertCall ns => some ns.length
    | _ => none)

/-- Mutable process state seen by the document manager: the singleton index,
the image filesystem, the uuid supply and the index-effect log. `uuid.uuid4()`
is modelled as a deterministic fresh-name supply: the n-th draw is a name no
other draw produces (real uuids are random and collision-free). -/
structure DMState where
  index : IndexState
  fs : FS
  ctr : Nat
  log : List IndexEvent
deriving DecidableEq, Repr

/-- The n-th fresh uuid of the supply. -/
def freshUuid (n : Nat) : String := String.mk ('u' :: List.replicate n 'x')

/-- Result dictionary of `add_document` (the timestamp field carries no
information the spec constrains and is omitted). -/
structure AddResult where
  document_id : String
  filename : String
  page_count : Nat
  status : String
deriving DecidableEq, Repr

/-- Result dictionary of `delete_document`. -/
structure DeleteResult where
  document_id : String
  status : String
  images_deleted : Nat
deriving DecidableEq, Repr

/-- Result dictionary of `update_document`. -/
structure UpdateResult where
  document_id : String
  filename : String
  page_count : Nat
  status : String
  old_images_deleted : Nat
deriving DecidableEq, Repr

/-- Embedding of `document_manager.add_document(pdf_path, doc_id)`:
generate a uuid when no id is given, parse, reject an empty node list,
then `get_index()`, `index.insert_nodes(nodes)` (one call, no lock) and
`persist_index()`. A raised exception is an `Except.error` carrying the
message; the state component is whatever the mutations so far produced. -/
def add_document (st : DMState) (pdf : PdfFile) (docId? : Option String) :
    DMState × Except String AddResult :=
  let pick : String × DMState :=
    match docId? with
    | some d => (d, st)
    | none => (freshUuid st.ctr, { st with ctr := st.ctr + 1 })
  let docId := pick.1
  let st1 := pick.2
  let nodes := parse_pdf pdf docId
  if nodes.isEmpty then
    (st1, Except.error ("No nodes extracted from PDF: " ++ pdf.path))
  else
    let st2 := { st1 with
      index := insert_nodes st1.index nodes
      log := st1.log ++ [IndexEvent.insertCall nodes, IndexEvent.persistCall] }
    (st2, Except.ok
      { document_id := docId
        filename := basename pdf.path
        page_count := nodes.length
        status := "success" })

/-- The per-node image pass of `delete_document` (lines 102-113): for each
owned node id, fetch the node (a failing fetch is caught and skipped), and
when its `image_path` metadata is set and the file exists, remove the file
and count it. -/
def deleteNodeImages (idx : IndexState) (nids : List String) (fs : FS) : FS × Nat :=
  nids.foldl (fun acc nid =>
    match lookupKey idx.docstore nid with
    | none => acc
    | some n =>
      if n.meta.image_path ≠ "" ∧ acc.1.fileExists n.meta.image_path then
        (acc.1.removeFile n.meta.image_path, acc.2 + 1)
      else acc) (fs, 0)

/-- Embedding of `document_manager.delete_document(doc_id)`: raise
`ValueError` when the id is unknown; otherwise best-effort delete the owned
image files, remove the document-scoped image directory, delete the ref doc
from the index and persist. -/
def delete_document (st : DMState) (doc_id : String) :
    DMState × Except String DeleteResult :=
  match lookupKey st.index.refDocInfo doc_id with
  | none => (st, Except.error ("Document not found: " ++ doc_id))
  | some nids =>
    let pass := deleteNodeImages st.index nids st.fs
    let dir := imageDir ++ "/" ++ doc_id
    let fs2 := if pass.1.dirExists dir then pass.1.rmtree dir else pass.1
    ({ st with
        index := delete_ref_doc st.index doc_id
        fs := fs2
        log := st.log ++ [IndexEvent.deleteCall doc_id, IndexEvent.persistCall] },
     Except.ok { document_id := doc_id, status := "deleted", images_deleted := pass.2 })

/-- Embedding of `document_manager.update_document(doc_id, new_pdf_path)`:
delete the old document, then add the new PDF under the same id; an exception
from either step propagates, leaving the state the failing step left. -/
def update_document (st : DMState) (doc_id : String) (pdf : PdfFile) :
    DMState × Except String UpdateResult :=
  let d := delete_document st doc_id
  match d.2 with
  | Except.error e => (d.1, Except.error e)
  | Except.ok delRes =>
    let a := add_document d.1 pdf (some doc_id)
    match a.2 with
    | Except.error e => (a.1, Except.error e)
    | Except.ok addRes =>
      (a.1, Except.ok
        { document_id := doc_id
          filename := addRes.filename
          page_count := addRes.page_count
          status := "updated"
          old_images_deleted := delRes.images_deleted })

/-- Composition the specification prescribes for `update`, in its own words:
`delete(id)` followed by `add(new_path, id=id)` (state view). -/
def spec_delete_then_add (st : DMState) (doc_id : String) (pdf : PdfFile) : DMState :=
  let d := delete_document st doc_id
  match d.2 with
  | Except.error _ => d.1
  | Except.ok _ => (add_document d.1 pdf (some doc_id)).1

/-! ## Read side: get_document_info -/

/-- One entry of the `pages` list `get_document_info` builds. -/
structure PageDetail where
  page_number : Nat
  image_path : String
  text_preview : String
deriving DecidableEq, Repr

/-- Detail dictionary returned by `get_document_info`. -/
structure DocDetail where
  document_id : String
  filename : String
  page_count : Nat
  node_ids : List String
  pages : List PageDetail
deriving DecidableEq, Repr

/-- The preview of `document_manager.get_document_info` line 265:
the node text when its length is at most 100, else the first 100 characters
followed by an ellipsis. -/
def previewText (s : String) : String :=
  if strLen s > 100 then strTake s 100 ++ "..." else s

/-- Ascending page-number order on the page dictionaries. -/
def pageLE (p q : PageDetail) : Prop := p.page_number ≤ q.page_number

instance : DecidableRel pageLE := fun p q => Nat.decLe p.page_number q.page_number

instance : IsTotal PageDetail pageLE := ⟨fun p q => Nat.le_total p.page_number q.page_number⟩

instance : IsTrans PageDetail pageLE := ⟨fun _ _ _ h h2 => Nat.le_trans h h2⟩

/-- One step of the node loop of `get_document_info` (lines 255-268): fetch
the node (a failure is caught and skipped), adopt its filename while the
running filename is still empty or "unknown", and append the page entry. -/
def collectPage (idx : IndexState) (acc : String × List PageDetail) (nid : String) :
    String × List PageDetail :=
  match lookupKey idx.docstore nid with
  | none => acc
  | some n =>
    let fn := if acc.1 = "" ∨ acc.1 = "unknown" then n.meta.filename else acc.1
    (fn, acc.2 ++ [{ page_number := n.meta.page_number
                     image_path := n.meta.image_path
                     text_preview := previewText n.text }])

/-- Embedding of `document_manager.get_document_info(doc_id)`: `None` for an
unknown id, otherwise the per-page details collected from the owned nodes and
sorted by page number (Python `list.sort` is an ascending stable sort,
modelled by insertion sort, which is also stable). -/
def get_document_info (st : DMState) (doc_id : String) : Option DocDetail :=
  match lookupKey st.index.refDocInfo doc_id with
  | none => none
  | some nids =>
    let r := nids.foldl (collectPage st.index) ("unknown", [])
    let pages := List.insertionSort pageLE r.2
    some { document_id := doc_id
           filename := r.1
           page_count := pages.length
           node_ids := nids
           pages := pages }

/-! ## Batch CLI insert loop (src/parse.py, main) -/

/-- The CLI batch bound: `batch_size = 2` in `parse.py` line 106. -/
def batchSize : Nat := 2

/-- The node batches the CLI loop of `parse.py` lines 105-115 feeds to
`insert_nodes`: batch `b` is `all_nodes[b*2 : min(b*2+2, len)]`, for
`b < ceil(len / 2)` batches. -/
def main_insert_batches (all_nodes : List TextNode) : List (List TextNode) :=
  let totalBatches := (all_nodes.length + batchSize - 1) / batchSize
  (List.range totalBatches).map (fun b => (all_nodes.drop (b * batchSize)).take batchSize)

/-! ## Image storage: delete_images (local backend) -/

/-- Embedding of `ImageStorageManager.delete_images` for the local backend
(image_storage.py lines 237-243): when the image directory of the document exists,
`shutil.rmtree` it and then count the `*.jpg` files its `glob` finds — the
glob runs on the filesystem as it is after the rmtree. -/
def delete_images (fs : FS) (doc_id : String) : FS × Nat :=
  let dir := imageDir ++ "/" ++ doc_id
  if fs.dirExists dir then
    let fs2 := fs.rmtree dir
    (fs2, (fs2.globJpg dir).length)
  else (fs, 0)

/-! ## API dependencies: resolve_image_path and validate_pdf_file -/

/-- Embedding of `dependencies.resolve_image_path(image_path)`: the stored
path (expanded) verbatim, then the bare filename under the image root, then
the filename in each immediate subdirectory of the image root in listing
order; `FileNotFoundError` when all three fail. -/
def resolve_image_path (fs : FS) (image_path : String) : Except String String :=
  let img := expanduser image_path
  if fs.pathExists img then Except.ok img
  else
    let filename := basename img
    let possible := imageDir ++ "/" ++ filename
    if fs.pathExists possible then Except.ok possible
    else
      match (fs.immediateSubdirs imageDir).find?
          (fun d => fs.pathExists (d ++ "/" ++ filename)) with
      | some d => Except.ok (d ++ "/" ++ filename)
      | none => Except.error ("Image not found: " ++ filename)

/-- An HTTP error response (`HTTPException`). -/
structure HttpError where
  status_code : Nat
  detail : String
deriving DecidableEq, Repr

/-- An uploaded file as FastAPI presents it: optional filename, the declared
content type of the request, and the reported size when known. -/
structure UploadFile where
  filename : Option String
  content_type : Option String
  size : Option Nat
deriving DecidableEq, Repr

/-- The upload size bound of `validate_pdf_file`: 100 MB. -/
def maxUploadSize : Nat := 100 * 1024 * 1024

/-- Embedding of `dependencies.validate_pdf_file(file)`: reject a missing or
empty filename (400), a filename whose lower-casing does not end in ".pdf"
(400), and a reported size above 100 MB (413). No other field of the upload
is inspected. -/
def validate_pdf_file (f : UploadFile) : Except HttpError Unit :=
  if f.filename = none ∨ f.filename = some "" then
    Except.error { status_code := 400, detail := "No filename provided" }
  else
    let name := f.filename.getD ""
    if strEndsWith (strLower name) ".pdf" = false then
      Except.error { status_code := 400
                     detail := "Invalid file type. Expected PDF, got: " ++ name }
    else
      match f.size with
      | some sz =>
        if sz ≠ 0 ∧ sz > maxUploadSize then
          Except.error { status_code := 413, detail := "File too large. Maximum size is 100MB" }
        else Except.ok ()
      | none => Except.ok ()

/-- Python `file.filename or "unknown.pdf"`. -/
def filenameOrDefault (f : UploadFile) : String :=
  match f.filename with
  | some n => if n = "" then "unknown.pdf" else n
  | none => "unknown.pdf"

/-- The response dictionary of the upload route. -/
structure UploadResponse where
  document_id : String
  filename : String
  page_count : Nat
  status : String
deriving DecidableEq, Repr

/-- Outcome of one call of the upload route: the HTTP response, the scheduled
background task if any — recorded as the pair of the temp-file path and the
`doc_id` argument handed to `process_document_upload` — and the advanced uuid
supply. -/
structure UploadOutcome where
  response : Except HttpError UploadResponse
  background : Option (String × Option String)
  ctr : Nat
deriving Repr

/-- Embedding of the upload route `documents.upload_document` (routes lines
54-84): validate, save to a temp file (the resulting path is the `tempPath`
argument), schedule `process_document_upload(temp_path)` — with no `doc_id`
argument — and answer 202 with a freshly generated provisional uuid and
`page_count = 0`. -/
def upload_document (ctr : Nat) (f : UploadFile) (tempPath : String) : UploadOutcome :=
  match validate_pdf_file f with
  | Except.error e => { response := Except.error e, background := none, ctr := ctr }
  | Except.ok _ =>
    let doc_id := freshUuid ctr
    { response := Except.ok
        { document_id := doc_id
          filename := filenameOrDefault f
          page_count := 0
          status := "processing" }
      background := some (tempPath, none)
      ctr := ctr + 1 }

/-! ## Decidability of result comparison -/

instance {e a : Type} [DecidableEq e] [DecidableEq a] : DecidableEq (Except e a) := fun x y =>
  match x, y with
  | Except.error u, Except.error v =>
    if h : u = v then isTrue (by rw [h]) else isFalse (by intro hc; cases hc; exact h rfl)
  | Except.error _, Except.ok _ => isFalse (by intro hc; cases hc)
  | Except.ok _, Except.error _ => isFalse (by intro hc; cases hc)
  | Except.ok u, Except.ok v =>
    if h : u = v then isTrue (by rw [h]) else isFalse (by intro hc; cases hc; exact h rfl)

/-! ## Concrete fixtures used by witnesses and counterexamples -/

/-- The empty process state: fresh index, empty image tree, fresh uuid supply. -/
def exState0 : DMState :=
  { index := { refDocInfo := [], docstore := [] }
    fs := { files := [], dirs := [] }
    ctr := 0
    log := [] }

/-- A three-page PDF as the external parser reports it. -/
def exPdf3 : PdfFile :=
  { path := "docs/manual.pdf"
    pages := [ { node_id := "n1", text := "alpha", image_path := "data_images/doc1/page_1.jpg" },
               { node_id := "n2", text := "beta", image_path := "data_images/doc1/page_2.jpg" },
               { node_id := "n3", text := "gamma", image_path := "data_images/doc1/page_3.jpg" } ] }

/-- The state after adding `exPdf3` under the id `doc1`. -/
def exState3 : DMState := (add_document exState0 exPdf3 (some "doc1")).1

/-- A five-page PDF. -/
def exPdf5 : PdfFile :=
  { path := "docs/big5.pdf"
    pages := [ { node_id := "q1", text := "p1", image_path := "" },
               { node_id := "q2", text := "p2", image_path := "" },
               { node_id := "q3", text := "p3", image_path := "" },
               { node_id := "q4", text := "p4", image_path := "" },
               { node_id := "q5", text := "p5", image_path := "" } ] }

/-- A two-page replacement PDF with node ids disjoint from `exPdf3`. -/
def exPdfB : PdfFile :=
  { path := "docs/manual_v2.pdf"
    pages := [ { node_id := "m1", text := "delta", image_path := "data_images/doc1/page_1.jpg" },
               { node_id := "m2", text := "epsilon", image_path := "data_images/doc1/page_2.jpg" } ] }

/-! ## C4 — delete of an unknown id raises not-found, state unchanged -/

/-- Claim C4: for every document id not present in the index, `delete_document`
fails with the not-found `ValueError` (an error result, never a success
dictionary) and returns with the process state exactly unchanged. -/
theorem delete_document_unknown_id (st : DMState) (doc_id : String)
    (h : lookupKey st.index.refDocInfo doc_id = none) :
    delete_document st doc_id = (st, Except.error ("Document not found: " ++ doc_id)) := by
  unfold delete_document
  rw [h]

/-- Witness for C4: deleting `zzz` from the empty state errors and changes
nothing. -/
theorem delete_document_unknown_id_witness :
    delete_document exState0 "zzz" = (exState0, Except.error ("Document not found: " ++ "zzz")) :=
  delete_document_unknown_id exState0 "zzz" rfl

/-! ## C5 — a zero-fragment parse aborts add before any index mutation -/

/-- Claim C5: when the parse step yields zero fragments, `add_document`
raises before any index mutation or persist: the result is an error, and the
index, the image filesystem and the index-effect log of the state are exactly
the ones of the input state (no insert, no persist, no document created). -/
theorem add_document_zero_fragments (st : DMState) (pdf : PdfFile) (docId? : Option String)
    (h : pdf.pages = []) :
    (∃ e, (add_document st pdf docId?).2 = Except.error e) ∧
    (add_document st pdf docId?).1.index = st.index ∧
    (add_document st pdf docId?).1.fs = st.fs ∧
    (add_document st pdf docId?).1.log = st.log := by
  cases docId? <;> simp [add_document, parse_pdf, h]

/-- Witness for C5: adding a PDF whose parse produced no pages fails and
leaves the index of the empty state, filesystem and log untouched. -/
theorem add_document_zero_fragments_witness :
    (∃ e, (add_document exState0 { path := "docs/blank.pdf", pages := [] } none).2 = Except.error e) ∧
    (add_document exState0 { path := "docs/blank.pdf", pages := [] } none).1.index = exState0.index ∧
    (add_document exState0 { path := "docs/blank.pdf", pages := [] } none).1.fs = exState0.fs ∧
    (add_document exState0 { path := "docs/blank.pdf", pages := [] } none).1.log = exState0.log :=
  add_document_zero_fragments exState0 { path := "docs/blank.pdf", pages := [] } none rfl

/-! ## C1 — the batch insert runs without the single-writer mutation lock -/

/-- Claim C1 (refuted, code bug): the new index effects of every
`add_document` call are either none (the zero-fragment error path) or exactly
one `insert_nodes` call followed by one persist — the single-writer mutation
lock of `index_manager.get_index_lock` is never acquired, neither for the
batch nor per fragment, although the claim (and the docstring of the lock itself)
require the whole batch insert to run under it. The closed conjunct evaluates
the effect log of a concrete three-page add. -/
theorem add_document_mutates_without_lock :
    (∀ (st : DMState) (pdf : PdfFile) (docId? : Option String),
      (add_document st pdf docId?).1.log = st.log ∨
      ∃ ns, (add_document st pdf docId?).1.log =
        st.log ++ [IndexEvent.insertCall ns, IndexEvent.persistCall]) ∧
    (add_document exState0 exPdf3 (some "doc1")).1.log =
      [IndexEvent.insertCall (parse_pdf exPdf3 "doc1"), IndexEvent.persistCall] := by
  constructor
  · intro st pdf docId?
    cases docId? with
    | none =>
      by_cases h : (parse_pdf pdf (freshUuid st.ctr)).isEmpty <;>
        simp [add_document, h]
    | some d =>
      by_cases h : (parse_pdf pdf d).isEmpty <;>
        simp [add_document, h]
  · decide

/-! ## C8 — delete_images counts after the rmtree and always reports zero -/

/-- Claim C8 (refuted, code bug): the local backend of
`ImageStorageManager.delete_images` always returns 0, because it counts the
`*.jpg` files by globbing the image directory of the document after `shutil.rmtree`
already removed it. The closed conjuncts exhibit a state whose directory
exists and holds exactly one jpg before the call, for which the call still
reports 0 deletions. -/
theorem delete_images_always_reports_zero :
    (∀ (fs : FS) (doc_id : String), (delete_images fs doc_id).2 = 0) ∧
    (FS.dirExists { files := ["data_images/d1/page_1.jpg"], dirs := ["data_images", "data_images/d1"] }
        (imageDir ++ "/" ++ "d1") = true ∧
     (FS.globJpg { files := ["data_images/d1/page_1.jpg"], dirs := ["data_images", "data_images/d1"] }
        (imageDir ++ "/" ++ "d1")).length = 1 ∧
     (delete_images { files := ["data_images/d1/page_1.jpg"], dirs := ["data_images", "data_images/d1"] }
        "d1").2 = 0) := by
  constructor
  · intro fs doc_id
    unfold delete_images
    by_cases h : fs.dirExists (imageDir ++ "/" ++ doc_id) <;> simp only [h, if_pos, if_neg, Bool.false_eq_true, ite_true, ite_false]
    · -- the glob runs on the filesystem after the rmtree: it finds nothing
      have hnil : (FS.globJpg (FS.rmtree fs (imageDir ++ "/" ++ doc_id)) (imageDir ++ "/" ++ doc_id)) = [] := by
        unfold FS.globJpg FS.rmtree
        refine List.filter_eq_nil_iff.mpr ?_
        intro a ha
        have hmem := List.mem_filter.mp ha
        unfold isDirectEntry
        cases hu : isUnder (imageDir ++ "/" ++ doc_id) a <;> simp_all
      rw [hnil]
      rfl
  · exact ⟨rfl, by decide, by decide⟩

/-! ## C9 — upload validation: size bound holds, content type is never checked -/

/-- An upload whose content type is not PDF but whose filename ends in
`.pdf`. -/
def nonPdfContentUpload : UploadFile :=
  { filename := some "doc.pdf", content_type := some "text/plain", size := some 1000 }

/-- Counterexample to C9 as stated: an upload whose declared content type is
`text/plain` (not a PDF content type) passes validation — the route answers
202 with a provisional id and schedules the background ingestion task, because
`validate_pdf_file` only inspects the filename extension and the size, never
the content type. -/
theorem upload_accepts_non_pdf_content_type :
    validate_pdf_file nonPdfContentUpload = Except.ok () ∧
    (upload_document 0 nonPdfContentUpload "/tmp/up1.pdf").response =
      Except.ok { document_id := freshUuid 0, filename := "doc.pdf"
                  page_count := 0, status := "processing" } ∧
    (upload_document 0 nonPdfContentUpload "/tmp/up1.pdf").background =
      some ("/tmp/up1.pdf", none) :=
  ⟨rfl, rfl, rfl⟩

/-- Amended C9: an upload is rejected with a validation error before any
mutation — error response, no background ingestion task scheduled — when the
filename is missing or empty (400), when the nonempty filename does not end
case-insensitively in `.pdf` (400), or when a `.pdf`-named upload reports a
size above the 100 MB bound (413, covering the 150 MB scenario; the checks
run in that order). The declared content type of the request is never
inspected, so changing it never changes the outcome. -/
theorem upload_validation_amended (ctr : Nat) (f : UploadFile) (tempPath : String) :
    ((f.filename = none ∨ f.filename = some "") →
      (upload_document ctr f tempPath).response =
        Except.error { status_code := 400, detail := "No filename provided" } ∧
      (upload_document ctr f tempPath).background = none) ∧
    (∀ name, f.filename = some name → name ≠ "" →
      strEndsWith (strLower name) ".pdf" = false →
      (upload_document ctr f tempPath).response =
        Except.error { status_code := 400
                       detail := "Invalid file type. Expected PDF, got: " ++ name } ∧
      (upload_document ctr f tempPath).background = none) ∧
    (∀ name sz, f.filename = some name → name ≠ "" →
      strEndsWith (strLower name) ".pdf" = true →
      f.size = some sz → sz > maxUploadSize →
      (upload_document ctr f tempPath).response =
        Except.error { status_code := 413, detail := "File too large. Maximum size is 100MB" } ∧
      (upload_document ctr f tempPath).background = none) ∧
    (∀ c, upload_document ctr { f with content_type := c } tempPath =
      upload_document ctr f tempPath) := by
  refine ⟨?_, ?_, ?_, fun c => rfl⟩
  · intro h
    have hv : validate_pdf_file f =
        Except.error { status_code := 400, detail := "No filename provided" } := by
      unfold validate_pdf_file
      rw [if_pos h]
    simp [upload_document, hv]
  · intro name hf hne hext
    simp [upload_document, validate_pdf_file, hf, hne, hext]
  · intro name sz hf hne hext hsz hbig
    have hz : sz ≠ 0 := by
      intro h0
      rw [h0] at hbig
      exact Nat.not_lt_zero _ hbig
    simp [upload_document, validate_pdf_file, hf, hne, hext, hsz, hz, hbig]

/-- A 150 MB PDF upload. -/
def bigUpload : UploadFile :=
  { filename := some "big.pdf", content_type := some "application/pdf"
    size := some (150 * 1024 * 1024) }

/-- An upload that carries no filename at all. -/
def noNameUpload : UploadFile :=
  { filename := none, content_type := some "application/pdf", size := some 1000 }

/-- Witness for the amended C9: the 150 MB file is rejected with 413, the
filename-less upload with 400, and neither schedules a background task. -/
theorem upload_validation_amended_witness :
    ((upload_document 0 bigUpload "/tmp/up2.pdf").response =
      Except.error { status_code := 413, detail := "File too large. Maximum size is 100MB" } ∧
     (upload_document 0 bigUpload "/tmp/up2.pdf").background = none) ∧
    ((upload_document 0 noNameUpload "/tmp/up4.pdf").response =
      Except.error { status_code := 400, detail := "No filename provided" } ∧
     (upload_document 0 noNameUpload "/tmp/up4.pdf").background = none) :=
  ⟨(upload_validation_amended 0 bigUpload "/tmp/up2.pdf").2.2.1 "big.pdf" (150 * 1024 * 1024)
     rfl (by decide) (by decide) rfl (by decide),
   (upload_validation_amended 0 noNameUpload "/tmp/up4.pdf").1 (Or.inl rfl)⟩

/-! ## C10 — the provisional upload id is independent of the indexed id -/

/-- Fresh uuids of distinct draws differ. -/
theorem freshUuid_inj {m n : Nat} (h : freshUuid m = freshUuid n) : m = n := by
  have hlen := congrArg (fun s => s.data.length) h
  simpa [freshUuid] using hlen

/-- Claim C10: a validated upload schedules `process_document_upload` with no
`doc_id` argument and answers with a provisional uuid of its own draw; the
background `add_document(None)` call generates its own uuid from a strictly
later draw of the supply, so the id under which the document becomes visible
never equals the id the route returned. -/
theorem upload_provisional_id_independent (ctr : Nat) (f : UploadFile) (tempPath : String)
    (hok : validate_pdf_file f = Except.ok ()) :
    (upload_document ctr f tempPath).background = some (tempPath, none) ∧
    (∃ r, (upload_document ctr f tempPath).response = Except.ok r ∧
      r.document_id = freshUuid ctr) ∧
    (upload_document ctr f tempPath).ctr = ctr + 1 ∧
    (∀ (st : DMState) (pdf : PdfFile) (a : AddResult), ctr < st.ctr →
      (add_document st pdf none).2 = Except.ok a →
      a.document_id = freshUuid st.ctr ∧
      ∀ r, (upload_document ctr f tempPath).response = Except.ok r →
        a.document_id ≠ r.document_id) := by
  refine ⟨?_, ?_, ?_, ?_⟩
  · simp [upload_document, hok]
  · exact ⟨{ document_id := freshUuid ctr, filename := filenameOrDefault f
             page_count := 0, status := "processing" },
           by simp [upload_document, hok], rfl⟩
  · simp [upload_document, hok]
  · intro st pdf a hlt ha
    have hid : a.document_id = freshUuid st.ctr := by
      by_cases h : (parse_pdf pdf (freshUuid st.ctr)).isEmpty
      · simp [add_document, h] at ha
      · simp [add_document, h] at ha
        rw [← ha]
    refine ⟨hid, ?_⟩
    intro r hr
    have hrid : r.document_id = freshUuid ctr := by
      simp [upload_document, hok] at hr
      rw [← hr]
    rw [hid, hrid]
    intro hc
    exact Nat.lt_irrefl ctr (freshUuid_inj hc ▸ hlt)

/-- A valid small upload. -/
def okUpload : UploadFile :=
  { filename := some "ok.pdf", content_type := some "application/pdf", size := some 1000 }

/-- A state whose uuid supply is one draw past the draw of the upload. -/
def exStateBg : DMState := { exState0 with ctr := 1 }

/-- Witness for C10 at a concrete upload followed by a concrete background
add. -/
theorem upload_provisional_id_independent_witness :
    (upload_document 0 okUpload "/tmp/up3.pdf").background = some ("/tmp/up3.pdf", none) ∧
    (∃ r, (upload_document 0 okUpload "/tmp/up3.pdf").response = Except.ok r ∧
      r.document_id = freshUuid 0) ∧
    (upload_document 0 okUpload "/tmp/up3.pdf").ctr = 0 + 1 ∧
    (∀ (st : DMState) (pdf : PdfFile) (a : AddResult), 0 < st.ctr →
      (add_document st pdf none).2 = Except.ok a →
      a.document_id = freshUuid st.ctr ∧
      ∀ r, (upload_document 0 okUpload "/tmp/up3.pdf").response = Except.ok r →
        a.document_id ≠ r.document_id) :=
  upload_provisional_id_independent 0 okUpload "/tmp/up3.pdf" rfl

/-! ## C7 — three-step image path resolution, never inventing a path -/

/-- Claim C7: `resolve_image_path` tries exactly three steps in order — the
stored (tilde-expanded) path verbatim, the bare filename directly under the
image root, the filename in each immediate subdirectory of the image root in
listing order — returns the first existing path, raises the not-found error
when all three fail, and every path it returns exists. -/
theorem resolve_image_path_spec (fs : FS) (p : String) :
    (∀ q, resolve_image_path fs p = Except.ok q → fs.pathExists q = true) ∧
    (fs.pathExists (expanduser p) = true →
      resolve_image_path fs p = Except.ok (expanduser p)) ∧
    (fs.pathExists (expanduser p) = false →
      fs.pathExists (imageDir ++ "/" ++ basename (expanduser p)) = true →
      resolve_image_path fs p = Except.ok (imageDir ++ "/" ++ basename (expanduser p))) ∧
    (fs.pathExists (expanduser p) = false →
      fs.pathExists (imageDir ++ "/" ++ basename (expanduser p)) = false →
      (∀ d, (fs.immediateSubdirs imageDir).find?
          (fun d => fs.pathExists (d ++ "/" ++ basename (expanduser p))) = some d →
        resolve_image_path fs p = Except.ok (d ++ "/" ++ basename (expanduser p))) ∧
      ((fs.immediateSubdirs imageDir).find?
          (fun d => fs.pathExists (d ++ "/" ++ basename (expanduser p))) = none →
        resolve_image_path fs p =
          Except.error ("Image not found: " ++ basename (expanduser p)))) := by
  refine ⟨?_, ?_, ?_, ?_⟩
  · intro q hq
    unfold resolve_image_path at hq
    by_cases h1 : fs.pathExists (expanduser p) = true
    · rw [if_pos h1] at hq
      cases hq
      exact h1
    · rw [if_neg h1] at hq
      by_cases h2 : fs.pathExists (imageDir ++ "/" ++ basename (expanduser p)) = true
      · rw [if_pos h2] at hq
        cases hq
        exact h2
      · rw [if_neg h2] at hq
        cases hfind : (fs.immediateSubdirs imageDir).find?
            (fun d => fs.pathExists (d ++ "/" ++ basename (expanduser p))) with
        | none => rw [hfind] at hq; cases hq
        | some d =>
          rw [hfind] at hq
          cases hq
          have hp := List.find?_some hfind
          simpa using hp
  · intro h1
    unfold resolve_image_path
    rw [if_pos h1]
  · intro h1 h2
    unfold resolve_image_path
    rw [if_neg (by rw [h1]; exact Bool.false_ne_true), if_pos h2]
  · intro h1 h2
    constructor
    · intro d hd
      unfold resolve_image_path
      rw [if_neg (by rw [h1]; exact Bool.false_ne_true),
          if_neg (by rw [h2]; exact Bool.false_ne_true), hd]
    · intro hnone
      unfold resolve_image_path
      rw [if_neg (by rw [h1]; exact Bool.false_ne_true),
          if_neg (by rw [h2]; exact Bool.false_ne_true), hnone]

/-- An image filesystem whose stored path went stale: the file now lives
under a per-document subdirectory of the image root. -/
def exFS7 : FS :=
  { files := ["data_images/docA/page_1.jpg"]
    dirs := ["data_images", "data_images/docA"] }

/-- Witness for C7: a stale stored path is recovered through the
subdirectory search (step three), and the returned path exists. -/
theorem resolve_image_path_spec_witness :
    exFS7.pathExists (expanduser "/old/volume/page_1.jpg") = false ∧
    exFS7.pathExists (imageDir ++ "/" ++ basename (expanduser "/old/volume/page_1.jpg")) = false ∧
    resolve_image_path exFS7 "/old/volume/page_1.jpg" =
      Except.ok ("data_images/docA" ++ "/" ++ basename (expanduser "/old/volume/page_1.jpg")) ∧
    exFS7.pathExists ("data_images/docA" ++ "/" ++ basename (expanduser "/old/volume/page_1.jpg")) = true :=
  ⟨by decide, by decide,
   ((resolve_image_path_spec exFS7 "/old/volume/page_1.jpg").2.2.2 (by decide) (by decide)).1
     "data_images/docA" (by decide),
   (resolve_image_path_spec exFS7 "/old/volume/page_1.jpg").1 _
     (((resolve_image_path_spec exFS7 "/old/volume/page_1.jpg").2.2.2 (by decide) (by decide)).1
       "data_images/docA" (by decide))⟩

/-! ## C2 — batch chunking: the CLI chunks, add_document does not -/

/-- Metadata stamping preserves the page count. -/
theorem parse_pdf_length (pdf : PdfFile) (d : String) :
    (parse_pdf pdf d).length = pdf.pages.length := by
  simp [parse_pdf]

/-- Metadata stamping preserves emptiness. -/
theorem parse_pdf_isEmpty (pdf : PdfFile) (d : String) :
    (parse_pdf pdf d).isEmpty = pdf.pages.isEmpty := by
  cases h : pdf.pages with
  | nil => simp [parse_pdf, h]
  | cons x xs => simp [parse_pdf, h]

/-- The slices taken by the CLI loop of `parse.py` concatenate back to the
full node list: the chunking drops nothing. -/
theorem main_insert_batches_flatten : ∀ (ns : List TextNode),
    (main_insert_batches ns).flatten = ns
  | [] => by simp [main_insert_batches, batchSize]
  | [a] => by simp [main_insert_batches, batchSize, List.range_succ]
  | a :: b :: tl => by
    have ih := main_insert_batches_flatten tl
    unfold main_insert_batches at ih ⊢
    simp only [batchSize] at ih ⊢
    have harith : ((a :: b :: tl).length + 2 - 1) / 2 = (tl.length + 2 - 1) / 2 + 1 := by
      simp only [List.length_cons]
      omega
    rw [harith, List.range_succ_eq_map]
    simp only [List.map_cons, List.map_map, List.flatten_cons, Nat.zero_mul, List.drop_zero]
    have hmap : (List.range ((tl.length + 2 - 1) / 2)).map
        ((fun i => ((a :: b :: tl).drop (i * 2)).take 2) ∘ Nat.succ) =
        (List.range ((tl.length + 2 - 1) / 2)).map (fun i => (tl.drop (i * 2)).take 2) := by
      apply List.map_congr_left
      intro i _
      have h2 : Nat.succ i * 2 = i * 2 + 1 + 1 := by omega
      show ((a :: b :: tl).drop (Nat.succ i * 2)).take 2 = (tl.drop (i * 2)).take 2
      rw [h2, List.drop_succ_cons, List.drop_succ_cons]
    rw [hmap, ih]
    rfl

/-- Counterexample to C2 as stated: adding a five-page PDF through
`add_document` performs exactly one `insert_nodes` call carrying all five
fragments — not a sequence of bounded batches — although the CLI bound is 2
and the CLI loop would have split the same nodes into three calls of sizes
2, 2, 1. -/
theorem add_document_unchunked_insert :
    insertCallSizes (add_document exState0 exPdf5 (some "doc5")).1.log = [5] ∧
    batchSize = 2 ∧
    (main_insert_batches (parse_pdf exPdf5 "doc5")).map List.length = [2, 2, 1] :=
  ⟨by decide, rfl, by decide⟩

/-- Amended C2: only the batch CLI loop of `parse.py` chunks its inserts —
every batch it passes to `insert_nodes` has at most `batch_size = 2` nodes
and the batches concatenate to the full node list (nothing truncated) —
whereas `add_document` always issues exactly one `insert_nodes` call carrying
the entire fragment list of the document, with no bound and no size check. -/
theorem insert_batching_amended :
    (∀ ns : List TextNode,
      (∀ b ∈ main_insert_batches ns, b.length ≤ batchSize) ∧
      (main_insert_batches ns).flatten = ns) ∧
    (∀ (st : DMState) (pdf : PdfFile) (docId? : Option String), pdf.pages ≠ [] →
      ∃ new, (add_document st pdf docId?).1.log = st.log ++ new ∧
        insertCallSizes new = [pdf.pages.length]) := by
  constructor
  · intro ns
    refine ⟨?_, main_insert_batches_flatten ns⟩
    intro b hb
    unfold main_insert_batches at hb
    simp only [List.mem_map] at hb
    obtain ⟨i, _, rfl⟩ := hb
    exact List.length_take_le _ _
  · intro st pdf docId? hne
    have hpe : pdf.pages.isEmpty = false := by
      cases hp : pdf.pages with
      | nil => exact absurd hp hne
      | cons x xs => rfl
    cases docId? with
    | none =>
      refine ⟨[IndexEvent.insertCall (parse_pdf pdf (freshUuid st.ctr)),
               IndexEvent.persistCall], ?_, ?_⟩
      · simp [add_document, parse_pdf_isEmpty, hpe]
      · simp [insertCallSizes, parse_pdf_length]
    | some d =>
      refine ⟨[IndexEvent.insertCall (parse_pdf pdf d), IndexEvent.persistCall], ?_, ?_⟩
      · simp [add_document, parse_pdf_isEmpty, hpe]
      · simp [insertCallSizes, parse_pdf_length]

/-- Witness for the amended C2: the five-page add appends one insert call of
size five to the log. -/
theorem insert_batching_amended_witness :
    ∃ new, (add_document exState0 exPdf5 (some "d5")).1.log = exState0.log ++ new ∧
      insertCallSizes new = [exPdf5.pages.length] :=
  insert_batching_amended.2 exState0 exPdf5 (some "d5") (by decide)

/-! ## C6 — get returns sorted pages with truncated previews, None when absent -/

/-- Every page dictionary produced by the node loop of `get_document_info`
comes from a successfully fetched node among the node ids of the document. -/
theorem collectPage_foldl_mem (idx : IndexState) :
    ∀ (nids : List String) (acc : String × List PageDetail) (p : PageDetail),
      p ∈ (nids.foldl (collectPage idx) acc).2 →
      p ∈ acc.2 ∨ ∃ nid n, nid ∈ nids ∧ lookupKey idx.docstore nid = some n ∧
        p = { page_number := n.meta.page_number, image_path := n.meta.image_path,
              text_preview := previewText n.text }
  | [], _, _, hp => Or.inl hp
  | nid :: rest, acc, p, hp => by
    rcases collectPage_foldl_mem idx rest (collectPage idx acc nid) p hp with
      h | ⟨nid2, n, hmem, hl, hpe⟩
    · unfold collectPage at h
      cases hl : lookupKey idx.docstore nid with
      | none => rw [hl] at h; exact Or.inl h
      | some n =>
        rw [hl] at h
        dsimp only at h
        rcases List.mem_append.mp h with h1 | h2
        · exact Or.inl h1
        · right
          refine ⟨nid, n, List.mem_cons_self _ _, hl, ?_⟩
          simpa using h2
    · exact Or.inr ⟨nid2, n, List.mem_cons_of_mem _ hmem, hl, hpe⟩

/-- The node loop of `get_document_info` collects, in id order, exactly one
page dictionary for every owned node id that resolves in the docstore. -/
theorem collectPage_foldl_pages (idx : IndexState) :
    ∀ (nids : List String) (acc : String × List PageDetail),
      (nids.foldl (collectPage idx) acc).2 =
        acc.2 ++ nids.filterMap (fun nid => (lookupKey idx.docstore nid).map
          (fun n => ({ page_number := n.meta.page_number, image_path := n.meta.image_path,
                       text_preview := previewText n.text } : PageDetail)))
  | [], acc => by simp
  | nid :: rest, acc => by
    have ih := collectPage_foldl_pages idx rest (collectPage idx acc nid)
    rw [List.foldl_cons, ih]
    cases hl : lookupKey idx.docstore nid with
    | none => simp [collectPage, hl, List.filterMap_cons]
    | some n => simp [collectPage, hl, List.filterMap_cons]

/-- Claim C6: for an id absent from the index, `get_document_info` returns
`None` (no exception); for a present id it returns a detail record that keeps
the node ids of the document and whose pages are exactly one entry per owned
node that resolves in the docstore (a permutation of that collection —
nothing dropped, nothing added), sorted by ascending page number, each
carrying the page data of its node with a text preview equal to the node text
when that text has at most 100 characters and to the first 100 characters
followed by the ellipsis marker otherwise. -/
theorem get_document_info_spec (st : DMState) (doc_id : String) :
    (lookupKey st.index.refDocInfo doc_id = none → get_document_info st doc_id = none) ∧
    (∀ nids, lookupKey st.index.refDocInfo doc_id = some nids →
      ∃ d, get_document_info st doc_id = some d ∧
        d.document_id = doc_id ∧
        d.node_ids = nids ∧
        d.pages.Perm (nids.filterMap (fun nid => (lookupKey st.index.docstore nid).map
          (fun n => ({ page_number := n.meta.page_number, image_path := n.meta.image_path,
                       text_preview := previewText n.text } : PageDetail)))) ∧
        d.page_count = d.pages.length ∧
        List.Sorted pageLE d.pages ∧
        (∀ p ∈ d.pages, ∃ nid n, nid ∈ nids ∧ lookupKey st.index.docstore nid = some n ∧
          p.page_number = n.meta.page_number ∧ p.image_path = n.meta.image_path ∧
          (strLen n.text ≤ 100 → p.text_preview = n.text) ∧
          (100 < strLen n.text → p.text_preview = strTake n.text 100 ++ "..."))) := by
  constructor
  · intro h
    unfold get_document_info
    rw [h]
  · intro nids h
    unfold get_document_info
    rw [h]
    refine ⟨_, rfl, rfl, rfl, ?_, rfl, ?_, ?_⟩
    · have h2 : (nids.foldl (collectPage st.index) ("unknown", [])).2 =
          nids.filterMap (fun nid => (lookupKey st.index.docstore nid).map
            (fun n => ({ page_number := n.meta.page_number, image_path := n.meta.image_path,
                         text_preview := previewText n.text } : PageDetail))) := by
        rw [collectPage_foldl_pages]
        simp
      dsimp only
      rw [h2]
      exact List.perm_insertionSort pageLE _
    · exact List.sorted_insertionSort pageLE _
    · intro p hp
      have hp2 : p ∈ (nids.foldl (collectPage st.index) ("unknown", [])).2 :=
        (List.perm_insertionSort pageLE _).mem_iff.mp hp
      rcases collectPage_foldl_mem st.index nids ("unknown", []) p hp2 with
        h0 | ⟨nid, n, hmem, hl, hpe⟩
      · simp at h0
      · subst hpe
        refine ⟨nid, n, hmem, hl, rfl, rfl, ?_, ?_⟩
        · intro hle
          simp only [previewText]
          rw [if_neg (by omega)]
        · intro hgt
          simp only [previewText]
          rw [if_pos hgt]

/-- Witness for C6 on the three-page document of `exState3`: `get` succeeds,
its pages are a permutation of the per-node page collection, sorted, with
node-faithful previews; the closed evaluation confirms the sourced scenario —
exactly three pages numbered 1, 2, 3 in order with nonempty previews — and
the absent-id branch is exercised on the id `nope`. -/
theorem get_document_info_spec_witness :
    (∃ d, get_document_info exState3 "doc1" = some d ∧
      d.document_id = "doc1" ∧
      d.node_ids = ["n1", "n2", "n3"] ∧
      d.pages.Perm (["n1", "n2", "n3"].filterMap
        (fun nid => (lookupKey exState3.index.docstore nid).map
          (fun n => ({ page_number := n.meta.page_number, image_path := n.meta.image_path,
                       text_preview := previewText n.text } : PageDetail)))) ∧
      d.page_count = d.pages.length ∧
      List.Sorted pageLE d.pages ∧
      (∀ p ∈ d.pages, ∃ nid n, nid ∈ ["n1", "n2", "n3"] ∧
        lookupKey exState3.index.docstore nid = some n ∧
        p.page_number = n.meta.page_number ∧ p.image_path = n.meta.image_path ∧
        (strLen n.text ≤ 100 → p.text_preview = n.text) ∧
        (100 < strLen n.text → p.text_preview = strTake n.text 100 ++ "..."))) ∧
    get_document_info exState3 "doc1" = some
      { document_id := "doc1", filename := "manual.pdf", page_count := 3
        node_ids := ["n1", "n2", "n3"]
        pages := [ { page_number := 1, image_path := "data_images/doc1/page_1.jpg"
                     text_preview := "alpha" },
                   { page_number := 2, image_path := "data_images/doc1/page_2.jpg"
                     text_preview := "beta" },
                   { page_number := 3, image_path := "data_images/doc1/page_3.jpg"
                     text_preview := "gamma" } ] } ∧
    get_document_info exState3 "nope" = none :=
  ⟨(get_document_info_spec exState3 "doc1").2 ["n1", "n2", "n3"] (by decide),
   by decide,
   (get_document_info_spec exState3 "nope").1 (by decide)⟩

/-! ## C3 — update is delete-then-add and fully replaces the document -/

/-- Lookup skips an appended prefix in which the key is absent. -/
theorem lookupKey_append_none {b : Type} (l1 l2 : List (String × b)) (k : String)
    (h : lookupKey l1 k = none) : lookupKey (l1 ++ l2) k = lookupKey l2 k := by
  induction l1 with
  | nil => rfl
  | cons p rest ih =>
    cases p with
    | mk k2 v =>
      by_cases hk : k2 = k
      · simp [lookupKey, hk] at h
      · simp only [lookupKey, hk, if_false, List.cons_append, if_neg hk] at h ⊢
        exact ih h

/-- Lookup fails in a filtered list whose predicate rejects every binding of the key. -/
theorem lookupKey_filter_none {b : Type} (l : List (String × b)) (k : String)
    (pred : String × b → Bool) (h : ∀ v, pred (k, v) = false) :
    lookupKey (l.filter pred) k = none := by
  induction l with
  | nil => rfl
  | cons p rest ih =>
    cases p with
    | mk k2 v =>
      rw [List.filter_cons]
      by_cases hk : k2 = k
      · subst hk
        rw [h v]
        exact ih
      · cases hp : pred (k2, v)
        · simpa using ih
        · simpa [lookupKey, hk] using ih

/-- Filtering cannot make an absent key present. -/
theorem lookupKey_filter_of_none {b : Type} (l : List (String × b)) (k : String)
    (pred : String × b → Bool) (h : lookupKey l k = none) :
    lookupKey (l.filter pred) k = none := by
  induction l with
  | nil => rfl
  | cons p rest ih =>
    cases p with
    | mk k2 v =>
      by_cases hk : k2 = k
      · simp [lookupKey, hk] at h
      · simp only [lookupKey, if_neg hk] at h
        rw [List.filter_cons]
        cases hp : pred (k2, v)
        · simpa using ih h
        · simpa [lookupKey, hk] using ih h

/-- Registering a node id under a document appends it to that document entry. -/
theorem lookupKey_addRefNode_self (rdi : List (String × List String)) (d nid : String) :
    lookupKey (addRefNode rdi d nid) d = some ((lookupKey rdi d).getD [] ++ [nid]) := by
  induction rdi with
  | nil => simp [addRefNode, lookupKey]
  | cons p rest ih =>
    cases p with
    | mk k v =>
      by_cases hk : k = d
      · subst hk
        simp [addRefNode, lookupKey]
      · simp only [addRefNode, if_neg hk, lookupKey, if_neg hk]
        exact ih

/-- Inserting nodes appends their bindings to the docstore in order. -/
theorem insert_nodes_docstore : ∀ (ns : List TextNode) (idx : IndexState),
    (insert_nodes idx ns).docstore = idx.docstore ++ ns.map (fun n => (n.node_id, n))
  | [], idx => by simp [insert_nodes]
  | n :: rest, idx => by
    have ih := insert_nodes_docstore rest (insertNode idx n)
    simp only [insert_nodes, List.foldl_cons] at ih ⊢
    rw [ih]
    simp [insertNode, List.append_assoc]

/-- Inserting nodes of one source document extends that document entry by their ids in order. -/
theorem insert_nodes_refDocInfo_of_some (d : String) :
    ∀ (ns : List TextNode), (∀ n ∈ ns, n.source_ref = d) →
    ∀ (idx : IndexState) (v : List String), lookupKey idx.refDocInfo d = some v →
    lookupKey (insert_nodes idx ns).refDocInfo d = some (v ++ ns.map TextNode.node_id)
  | [], _, idx, v, hv => by simpa [insert_nodes] using hv
  | n :: rest, hsrc, idx, v, hv => by
    have h1 : lookupKey (insertNode idx n).refDocInfo d = some (v ++ [n.node_id]) := by
      simp only [insertNode, hsrc n (List.mem_cons_self _ _)]
      rw [lookupKey_addRefNode_self, hv]
      rfl
    have ih := insert_nodes_refDocInfo_of_some d rest
      (fun m hm => hsrc m (List.mem_cons_of_mem _ hm)) (insertNode idx n) (v ++ [n.node_id]) h1
    simp only [insert_nodes, List.foldl_cons] at ih ⊢
    rw [ih]
    simp

/-- Inserting a nonempty node batch for a document absent from the ref map creates its entry with exactly the batch ids in order. -/
theorem insert_nodes_refDocInfo_of_none (d : String) (ns : List TextNode)
    (hsrc : ∀ n ∈ ns, n.source_ref = d) (hne : ns ≠ [])
    (idx : IndexState) (h : lookupKey idx.refDocInfo d = none) :
    lookupKey (insert_nodes idx ns).refDocInfo d = some (ns.map TextNode.node_id) := by
  cases ns with
  | nil => exact absurd rfl hne
  | cons n rest =>
    have h1 : lookupKey (insertNode idx n).refDocInfo d = some [n.node_id] := by
      simp only [insertNode, hsrc n (List.mem_cons_self _ _)]
      rw [lookupKey_addRefNode_self, h]
      rfl
    have ih := insert_nodes_refDocInfo_of_some d rest
      (fun m hm => hsrc m (List.mem_cons_of_mem _ hm)) (insertNode idx n) [n.node_id] h1
    simp only [insert_nodes, List.foldl_cons] at ih ⊢
    rw [ih]
    simp

/-- With pairwise distinct node ids, each inserted node is found under its id. -/
theorem lookupKey_newPairs_self :
    ∀ (ns : List TextNode) (n : TextNode), (ns.map TextNode.node_id).Nodup → n ∈ ns →
      lookupKey (ns.map (fun m => (m.node_id, m))) n.node_id = some n
  | [], n, _, hmem => absurd hmem (List.not_mem_nil n)
  | m :: rest, n, hnd, hmem => by
    rcases List.mem_cons.mp hmem with rfl | htail
    · simp [lookupKey]
    · have hne : m.node_id ≠ n.node_id := by
        intro hc
        have : n.node_id ∈ rest.map TextNode.node_id := List.mem_map_of_mem _ htail
        rw [← hc] at this
        exact (List.nodup_cons.mp (by simpa using hnd)).1 this
      simp only [List.map_cons, lookupKey, if_neg hne]
      exact lookupKey_newPairs_self rest n (List.nodup_cons.mp (by simpa using hnd)).2 htail

/-- A key outside the batch ids is not found among the inserted bindings. -/
theorem lookupKey_newPairs_not_mem :
    ∀ (ns : List TextNode) (k : String), k ∉ ns.map TextNode.node_id →
      lookupKey (ns.map (fun m => (m.node_id, m))) k = none
  | [], _, _ => rfl
  | m :: rest, k, hk => by
    have h1 : m.node_id ≠ k := by
      intro hc
      exact hk (by rw [← hc]; exact List.mem_cons_self _ _)
    simp only [List.map_cons, lookupKey, if_neg h1]
    exact lookupKey_newPairs_not_mem rest k (fun hc => hk (List.mem_cons_of_mem _ hc))

/-- Metadata stamping preserves the node ids, in page order. -/
theorem parse_pdf_map_node_id (pdf : PdfFile) (d : String) :
    (parse_pdf pdf d).map TextNode.node_id = pdf.pages.map RawPage.node_id := by
  unfold parse_pdf
  rw [List.map_map]
  have : pdf.pages.map RawPage.node_id = (pdf.pages.enum.map Prod.snd).map RawPage.node_id := by
    rw [List.enum_map_snd]
  rw [this, List.map_map]
  rfl

/-- Every stamped node carries the SOURCE back-reference to the owning document. -/
theorem parse_pdf_source_ref (pdf : PdfFile) (d : String) :
    ∀ n ∈ parse_pdf pdf d, n.source_ref = d := by
  intro n hn
  unfold parse_pdf at hn
  rcases List.mem_map.mp hn with ⟨ip, _, rfl⟩
  rfl

/-- Every stamped node carries the filename of the PDF and the document id. -/
theorem parse_pdf_meta (pdf : PdfFile) (d : String) :
    ∀ n ∈ parse_pdf pdf d, n.meta.filename = basename pdf.path ∧ n.meta.document_id = d := by
  intro n hn
  unfold parse_pdf at hn
  rcases List.mem_map.mp hn with ⟨ip, _, rfl⟩
  exact ⟨rfl, rfl⟩

/-- The state `update_document` leaves equals the state of the composition
the specification prescribes: `delete(id)` followed by `add(new_path, id=id)`,
with either the exception of either step propagated. -/
theorem update_state_eq_spec (st : DMState) (doc_id : String) (pdf : PdfFile) :
    (update_document st doc_id pdf).1 = spec_delete_then_add st doc_id pdf := by
  unfold update_document spec_delete_then_add
  cases hd : (delete_document st doc_id).2 with
  | error e => simp [hd]
  | ok delRes =>
    cases ha : (add_document (delete_document st doc_id).1 pdf (some doc_id)).2 with
    | error e => simp [hd, ha]
    | ok addRes => simp [hd, ha]

/-- Claim C3: for an existing document id and a parseable new PDF (with the
externally generated node uuids fresh and pairwise distinct), `update_document`
behaves exactly as `delete(id)` followed by `add(new_pdf, doc_id=id)`: it
reports success with the new filename and page count under the same id, the
fragment list of the id becomes exactly the node ids of the new PDF in page order, each
new fragment is stored with the new filename and the preserved document id,
and none of the fragments of the old document remain in the docstore. -/
theorem update_document_spec (st : DMState) (doc_id : String) (pdf : PdfFile)
    (oldNids : List String)
    (hold : lookupKey st.index.refDocInfo doc_id = some oldNids)
    (hne : pdf.pages ≠ [])
    (hfresh : ∀ pg ∈ pdf.pages, lookupKey st.index.docstore pg.node_id = none)
    (hnodup : (pdf.pages.map RawPage.node_id).Nodup)
    (hdisj : ∀ pg ∈ pdf.pages, pg.node_id ∉ oldNids) :
    (update_document st doc_id pdf).1 = spec_delete_then_add st doc_id pdf ∧
    (∃ u, (update_document st doc_id pdf).2 = Except.ok u ∧
      u.document_id = doc_id ∧ u.filename = basename pdf.path ∧
      u.page_count = pdf.pages.length ∧ u.status = "updated") ∧
    lookupKey (update_document st doc_id pdf).1.index.refDocInfo doc_id =
      some (pdf.pages.map RawPage.node_id) ∧
    (∀ n ∈ parse_pdf pdf doc_id,
      lookupKey (update_document st doc_id pdf).1.index.docstore n.node_id = some n ∧
      n.meta.filename = basename pdf.path ∧ n.meta.document_id = doc_id) ∧
    (∀ nid ∈ oldNids,
      lookupKey (update_document st doc_id pdf).1.index.docstore nid = none) := by
  have hidx : (delete_document st doc_id).1.index =
      { refDocInfo := st.index.refDocInfo.filter (fun p => decide (p.1 ≠ doc_id))
        docstore := st.index.docstore.filter (fun p => !(oldNids.contains p.1)) } := by
    unfold delete_document
    rw [hold]
    dsimp only
    unfold delete_ref_doc
    rw [hold]
  obtain ⟨delRes, hdelok⟩ : ∃ r, (delete_document st doc_id).2 = Except.ok r := by
    unfold delete_document
    rw [hold]
    exact ⟨_, rfl⟩
  have hEmpty : (parse_pdf pdf doc_id).isEmpty = false := by
    rw [parse_pdf_isEmpty]
    cases hp : pdf.pages with
    | nil => exact absurd hp hne
    | cons x xs => rfl
  have haddok : (add_document (delete_document st doc_id).1 pdf (some doc_id)).2 =
      Except.ok { document_id := doc_id, filename := basename pdf.path
                  page_count := (parse_pdf pdf doc_id).length, status := "success" } := by
    simp [add_document, hEmpty]
  have haddidx : (add_document (delete_document st doc_id).1 pdf (some doc_id)).1.index =
      insert_nodes (delete_document st doc_id).1.index (parse_pdf pdf doc_id) := by
    simp [add_document, hEmpty]
  have hupd : update_document st doc_id pdf =
      ((add_document (delete_document st doc_id).1 pdf (some doc_id)).1,
       Except.ok { document_id := doc_id, filename := basename pdf.path
                   page_count := (parse_pdf pdf doc_id).length, status := "updated"
                   old_images_deleted := delRes.images_deleted }) := by
    unfold update_document
    simp only [hdelok, haddok]
  have hrefnone : lookupKey (delete_document st doc_id).1.index.refDocInfo doc_id = none := by
    rw [hidx]
    exact lookupKey_filter_none _ _ _ (fun v => by simp)
  have hparse_ne : parse_pdf pdf doc_id ≠ [] := by
    intro hc
    rw [hc] at hEmpty
    simp at hEmpty
  have hmemid : ∀ n ∈ parse_pdf pdf doc_id, n.node_id ∈ pdf.pages.map RawPage.node_id := by
    intro n hn
    rw [← parse_pdf_map_node_id pdf doc_id]
    exact List.mem_map_of_mem _ hn
  refine ⟨update_state_eq_spec st doc_id pdf, ?_, ?_, ?_, ?_⟩
  · refine ⟨_, by rw [hupd], rfl, rfl, ?_, rfl⟩
    exact parse_pdf_length pdf doc_id
  · rw [hupd]
    dsimp only
    rw [haddidx]
    rw [insert_nodes_refDocInfo_of_none doc_id _ (parse_pdf_source_ref pdf doc_id)
      hparse_ne _ hrefnone]
    rw [parse_pdf_map_node_id]
  · intro n hn
    refine ⟨?_, (parse_pdf_meta pdf doc_id n hn).1, (parse_pdf_meta pdf doc_id n hn).2⟩
    rw [hupd]
    dsimp only
    rw [haddidx, insert_nodes_docstore, hidx]
    dsimp only
    have hnone1 : lookupKey st.index.docstore n.node_id = none := by
      rcases List.mem_map.mp (hmemid n hn) with ⟨pg, hpg, hpgid⟩
      rw [← hpgid]
      exact hfresh pg hpg
    rw [lookupKey_append_none _ _ _ (lookupKey_filter_of_none _ _ _ hnone1)]
    refine lookupKey_newPairs_self _ n ?_ hn
    rw [parse_pdf_map_node_id]
    exact hnodup
  · intro nid hnid
    rw [hupd]
    dsimp only
    rw [haddidx, insert_nodes_docstore, hidx]
    dsimp only
    have hfilter : lookupKey
        (st.index.docstore.filter (fun p => !(oldNids.contains p.1))) nid = none := by
      refine lookupKey_filter_none _ _ _ (fun v => ?_)
      simp only [Bool.not_eq_true']
      simpa using hnid
    rw [lookupKey_append_none _ _ _ hfilter]
    refine lookupKey_newPairs_not_mem _ nid ?_
    rw [parse_pdf_map_node_id]
    intro hc
    rcases List.mem_map.mp hc with ⟨pg, hpg, hpgid⟩
    exact hdisj pg hpg (hpgid ▸ hnid)

/-- Witness for C3: replacing the three-page `doc1` of `exState3` by the
two-page `exPdfB` under the same id. -/
theorem update_document_spec_witness :
    (update_document exState3 "doc1" exPdfB).1 = spec_delete_then_add exState3 "doc1" exPdfB ∧
    (∃ u, (update_document exState3 "doc1" exPdfB).2 = Except.ok u ∧
      u.document_id = "doc1" ∧ u.filename = basename exPdfB.path ∧
      u.page_count = exPdfB.pages.length ∧ u.status = "updated") ∧
    lookupKey (update_document exState3 "doc1" exPdfB).1.index.refDocInfo "doc1" =
      some (exPdfB.pages.map RawPage.node_id) ∧
    (∀ n ∈ parse_pdf exPdfB "doc1",
      lookupKey (update_document exState3 "doc1" exPdfB).1.index.docstore n.node_id = some n ∧
      n.meta.filename = basename exPdfB.path ∧ n.meta.document_id = "doc1") ∧
    (∀ nid ∈ ["n1", "n2", "n3"],
      lookupKey (update_document exState3 "doc1" exPdfB).1.index.docstore nid = none) :=
  update_document_spec exState3 "doc1" exPdfB ["n1", "n2", "n3"]
    (by decide) (by decide) (by decide) (by decide) (by decide)
